import Mathlib

/-!
Verification of the category data-access layer of the firetrack repository
(src/db/src/category.rs): the operations `create`, `read` and `delete` over
the `categories` table, together with the translation of storage constraint
violations into domain errors.

The Rust functions are embedded shallowly.  The storage backend (PostgreSQL
accessed through diesel) is not part of the repository source, so it is
modelled from the spec: a `Store` is the list of rows of the `categories`
table plus the next generated identity, inserts enforce the uniqueness
constraint on `(user_id, parent_id, name)` and the foreign key on
`parent_id`, and deletes enforce the restrict foreign key on `parent_id`.
-/

namespace Firetrack

/-- The `User` collaborator: the store only reads its integer `id`
(src/db/src/user.rs is external to this component). -/
structure User where
  id : Int
  deriving DecidableEq, Repr

/-- The `Category` record, mirroring `pub struct Category` in
src/db/src/category.rs (id, name, description, user_id, parent_id). -/
structure Category where
  id : Int
  name : String
  description : Option String
  user_id : Int
  parent_id : Option Int
  deriving DecidableEq, Repr

/-- The error kinds of `diesel::result::DatabaseErrorKind` that the module
distinguishes, plus a stand-in for every other kind. -/
inductive DatabaseErrorKind where
  | UniqueViolation
  | ForeignKeyViolation
  | SerializationFailure
  | UnableToSendCommand
  deriving DecidableEq, Repr

/-- The shape of `diesel::result::Error` relevant to this module:
`DatabaseError(kind, _)` is matched on, every other variant is opaque data. -/
inductive DieselError where
  | DatabaseError (kind : DatabaseErrorKind)
  | NotFound
  | QueryBuilderError
  | RollbackTransaction
  deriving DecidableEq, Repr

/-- `CategoryErrorKind` from src/db/src/category.rs. -/
inductive CategoryErrorKind where
  | CategoryAlreadyExists (name : String) (parent : Option String)
  | CreationFailed (err : DieselError)
  | DeletionFailed (err : DieselError)
  | HasChildren (id : Int)
  | MissingData (field : String)
  | NotDeleted (id : Int)
  | ParentCategoryHasWrongUser (expected : Int) (actual : Int)
  deriving DecidableEq, Repr

/-- Rust `char::is_whitespace`: the Unicode `White_Space` property
(U+0009..U+000D, U+0020, U+0085, U+00A0, U+1680, U+2000..U+200A,
U+2028, U+2029, U+202F, U+205F, U+3000). -/
def rustIsWhitespace (c : Char) : Bool :=
  (0x09 ≤ c.val && c.val ≤ 0x0D) || c.val == 0x20 || c.val == 0x85 ||
    c.val == 0xA0 || c.val == 0x1680 || (0x2000 ≤ c.val && c.val ≤ 0x200A) ||
    c.val == 0x2028 || c.val == 0x2029 || c.val == 0x202F ||
    c.val == 0x205F || c.val == 0x3000

/-- Rust `str::trim`: remove leading and trailing Unicode whitespace. -/
def strTrim (s : String) : String :=
  String.mk (((s.data.dropWhile rustIsWhitespace).reverse.dropWhile
    rustIsWhitespace).reverse)

/-- Modelled from the spec: the state of the backing `categories` table —
the rows plus the next identity that storage will generate on insert. -/
structure Store where
  cats : List Category
  nextId : Int
  deriving DecidableEq, Repr

/-- Modelled from the spec: the uniqueness constraint
`unique (user_id, parent_id, name)` — true when an existing row collides
with the candidate triple. -/
def dupExists (s : Store) (user_id : Int) (parent_id : Option Int)
    (name : String) : Bool :=
  s.cats.any fun c => c.user_id == user_id && c.parent_id == parent_id &&
    c.name == name

/-- Modelled from the spec: the foreign key `parent_id → categories.id` —
true when the candidate parent id references no existing row. -/
def parentMissing (s : Store) (parent_id : Option Int) : Bool :=
  match parent_id with
  | none => false
  | some pid => !(s.cats.any fun c => c.id == pid)

/-- Modelled from the spec: the single-statement insert with `returning`.
Storage rejects a duplicate `(user_id, parent_id, name)` with a
`UniqueViolation` and a dangling `parent_id` with a `ForeignKeyViolation`;
otherwise it assigns the generated identity and returns the stored row.
(The foreign key to the `users` table is not modelled; no claim involves
an absent user.) -/
def insertCategory (s : Store) (name : String) (description : Option String)
    (user_id : Int) (parent_id : Option Int) :
    Except DieselError Category × Store :=
  if dupExists s user_id parent_id name then
    (Except.error (DieselError.DatabaseError DatabaseErrorKind.UniqueViolation), s)
  else if parentMissing s parent_id then
    (Except.error (DieselError.DatabaseError DatabaseErrorKind.ForeignKeyViolation), s)
  else
    (Except.ok (Category.mk s.nextId name description user_id parent_id),
     Store.mk (s.cats ++ [Category.mk s.nextId name description user_id parent_id])
       (s.nextId + 1))

/-- Modelled from the spec: the single delete statement with the restrict
foreign key on `parent_id`.  Storage rejects the delete with a
`ForeignKeyViolation` while any row references the target as parent;
otherwise it removes the matching rows and reports the affected count. -/
def deleteRows (s : Store) (id : Int) : Except DieselError Nat × Store :=
  if s.cats.any fun c => c.parent_id == some id then
    (Except.error (DieselError.DatabaseError DatabaseErrorKind.ForeignKeyViolation), s)
  else
    (Except.ok (s.cats.length - (s.cats.filter fun c => !(c.id == id)).length),
     Store.mk (s.cats.filter fun c => !(c.id == id)) s.nextId)

/-- Modelled from the spec: `dsl::categories.find(id).first`, which yields
`NotFound` when no row matches. -/
def findRow (s : Store) (id : Int) : Except DieselError Category :=
  match s.cats.find? fun c => c.id == id with
  | some c => Except.ok c
  | none => Except.error DieselError.NotFound

/-- Lines 125-133 of src/db/src/category.rs: a `UniqueViolation` becomes
`CategoryAlreadyExists` with the (trimmed) name and the parent's name,
every other error is wrapped as `CreationFailed`. -/
def mapInsertResult (name : String) (parent : Option Category)
    (result : Except DieselError Category) : Except CategoryErrorKind Category :=
  match result with
  | Except.error (DieselError.DatabaseError DatabaseErrorKind.UniqueViolation) =>
    Except.error (CategoryErrorKind.CategoryAlreadyExists name
      (parent.map fun p => p.name))
  | Except.error e => Except.error (CategoryErrorKind.CreationFailed e)
  | Except.ok c => Except.ok c

/-- The insert half of `create` (lines 107-133): compute `parent_id` from
the supplied parent value, run the insert, map the result. -/
def runInsert (s : Store) (name : String) (description : Option String)
    (user : User) (parent : Option Category) :
    Except CategoryErrorKind Category × Store :=
  (mapInsertResult name parent
    (insertCategory s name description user.id (parent.map fun c => c.id)).1,
   (insertCategory s name description user.id (parent.map fun c => c.id)).2)

/-- `create` from src/db/src/category.rs (lines 84-134): trim the name and
reject an empty result, reject a parent owned by another user, then insert
and translate the storage result. -/
def create (s : Store) (user : User) (rawName : String)
    (description : Option String) (parent : Option Category) :
    Except CategoryErrorKind Category × Store :=
  if strTrim rawName = "" then
    (Except.error (CategoryErrorKind.MissingData "category name"), s)
  else
    match parent with
    | some p =>
      if p.user_id ≠ user.id then
        (Except.error (CategoryErrorKind.ParentCategoryHasWrongUser user.id p.user_id), s)
      else
        runInsert s (strTrim rawName) description user (some p)
    | none => runInsert s (strTrim rawName) description user none

/-- The match in `read` (lines 140-143): a successful lookup yields the
category, every error collapses to `None`. -/
def readResult (result : Except DieselError Category) : Option Category :=
  match result with
  | Except.ok c => some c
  | Except.error _ => none

/-- `read` from src/db/src/category.rs (lines 137-144). -/
def read (s : Store) (id : Int) : Option Category :=
  readResult (findRow s id)

/-- Lines 150-162 of src/db/src/category.rs: a `ForeignKeyViolation`
becomes `HasChildren id`, any other error `DeletionFailed`, an affected
count of zero `NotDeleted id`, and otherwise the delete succeeded. -/
def mapDeleteResult (id : Int) (result : Except DieselError Nat) :
    Except CategoryErrorKind Unit :=
  match result with
  | Except.error (DieselError.DatabaseError DatabaseErrorKind.ForeignKeyViolation) =>
    Except.error (CategoryErrorKind.HasChildren id)
  | Except.error e => Except.error (CategoryErrorKind.DeletionFailed e)
  | Except.ok n =>
    if n = 0 then Except.error (CategoryErrorKind.NotDeleted id) else Except.ok ()

/-- `delete` from src/db/src/category.rs (lines 147-163). -/
def delete (s : Store) (id : Int) : Except CategoryErrorKind Unit × Store :=
  (mapDeleteResult id (deleteRows s id).1, (deleteRows s id).2)

/-- The empty table with identity generation starting at 1. -/
def emptyStore : Store := Store.mk [] 1

/-- Hypothesis form used in theorem statements: every category of the
optional parent (none or one) is owned by the given user. -/
def parentOwnedBy (parent : Option Category) (uid : Int) : Bool :=
  match parent with
  | none => true
  | some p => p.user_id == uid

/-- Hypothesis form used in theorem statements: the optional parent's id
references a stored row. -/
def parentStored (s : Store) (parent : Option Category) : Bool :=
  match parent with
  | none => true
  | some p => s.cats.any fun c => c.id == p.id

/-- The per-user `(name, parent_id)` uniqueness invariant of the spec: no
two rows of the table agree on user, parent and name. -/
def UniqueTriples (s : Store) : Prop :=
  s.cats.Pairwise fun c d =>
    ¬(c.user_id = d.user_id ∧ c.parent_id = d.parent_id ∧ c.name = d.name)

/-- The states reachable from the empty table through the two mutating
operations of the module. -/
inductive Reachable : Store → Prop where
  | empty : Reachable emptyStore
  | step_create (s : Store) (u : User) (n : String) (d : Option String)
      (p : Option Category) : Reachable s → Reachable (create s u n d p).2
  | step_delete (s : Store) (i : Int) : Reachable s → Reachable (delete s i).2

/-! ### Helper lemmas -/

theorem strTrim_eq_empty_iff (s : String) :
    strTrim s = "" ↔ ∀ c ∈ s.data, rustIsWhitespace c = true := by
  unfold strTrim
  constructor
  · intro h
    have h2 : ((s.data.dropWhile rustIsWhitespace).reverse.dropWhile
        rustIsWhitespace).reverse = [] := by
      have h3 := congrArg String.data h
      simpa using h3
    rw [List.reverse_eq_nil_iff, List.dropWhile_eq_nil_iff] at h2
    intro c hc
    have hsplit : c ∈ s.data.takeWhile rustIsWhitespace ++
        s.data.dropWhile rustIsWhitespace := by
      rw [List.takeWhile_append_dropWhile]; exact hc
    rcases List.mem_append.mp hsplit with h4 | h4
    · exact List.mem_takeWhile_imp h4
    · exact h2 c (List.mem_reverse.mpr h4)
  · intro h
    have h2 : s.data.dropWhile rustIsWhitespace = [] :=
      List.dropWhile_eq_nil_iff.mpr h
    rw [h2]
    rfl

theorem mapInsertResult_ne_missingData (name : String) (parent : Option Category)
    (r : Except DieselError Category) (fld : String) :
    mapInsertResult name parent r ≠
      Except.error (CategoryErrorKind.MissingData fld) := by
  cases r with
  | ok c => simp [mapInsertResult]
  | error e =>
    cases e with
    | DatabaseError k => cases k <;> simp [mapInsertResult]
    | NotFound => simp [mapInsertResult]
    | QueryBuilderError => simp [mapInsertResult]
    | RollbackTransaction => simp [mapInsertResult]

theorem runInsert_ok (s : Store) (u : User) (name : String)
    (desc : Option String) (parent : Option Category)
    (hdup : dupExists s u.id (parent.map fun c => c.id) name = false)
    (hpm : parentMissing s (parent.map fun c => c.id) = false) :
    runInsert s name desc u parent =
      (Except.ok (Category.mk s.nextId name desc u.id (parent.map fun c => c.id)),
       Store.mk (s.cats ++
         [Category.mk s.nextId name desc u.id (parent.map fun c => c.id)])
         (s.nextId + 1)) := by
  simp [runInsert, insertCategory, hdup, hpm, mapInsertResult]

theorem create_ok_eq (s : Store) (u : User)
    (rawName : String) (desc : Option String) (parent : Option Category)
    (h1 : strTrim rawName ≠ "")
    (h2 : parentOwnedBy parent u.id = true)
    (h3 : parentStored s parent = true)
    (h4 : dupExists s u.id (parent.map fun c => c.id) (strTrim rawName) = false) :
    create s u rawName desc parent =
      (Except.ok (Category.mk s.nextId (strTrim rawName) desc u.id
        (parent.map fun c => c.id)),
       Store.mk (s.cats ++
         [Category.mk s.nextId (strTrim rawName) desc u.id
           (parent.map fun c => c.id)])
         (s.nextId + 1)) := by
  unfold create
  rw [if_neg h1]
  cases parent with
  | none =>
    exact runInsert_ok s u (strTrim rawName) desc none h4 rfl
  | some p =>
    have hown : p.user_id = u.id := by
      simpa [parentOwnedBy] using h2
    dsimp only
    rw [if_neg (by simp [hown])]
    have hpm : parentMissing s ((some p).map fun c => c.id) = false := by
      simp only [parentMissing, Option.map_some]
      simpa [parentStored] using h3
    exact runInsert_ok s u (strTrim rawName) desc (some p) h4 hpm

/-! ### Claims -/

/-- Claim C1: for every name whose Unicode-whitespace trim is non-empty,
every description, and every parent owned by the requesting user (or no
parent), `create` returns a fully materialized `Category` whose name is the
trimmed input name, whose description, user_id and parent_id equal the
supplied values, and whose id is the identity generated by storage for the
inserted row, which is appended to the table.  (The hypotheses that the
parent is stored and that the triple is fresh correspond to the storage
constraints accepting the insert.) -/
theorem create_returns_materialized_category (s : Store) (u : User)
    (rawName : String) (desc : Option String) (parent : Option Category)
    (h1 : strTrim rawName ≠ "")
    (h2 : parentOwnedBy parent u.id = true)
    (h3 : parentStored s parent = true)
    (h4 : dupExists s u.id (parent.map fun c => c.id) (strTrim rawName) = false) :
    create s u rawName desc parent =
      (Except.ok (Category.mk s.nextId (strTrim rawName) desc u.id
        (parent.map fun c => c.id)),
       Store.mk (s.cats ++
         [Category.mk s.nextId (strTrim rawName) desc u.id
           (parent.map fun c => c.id)])
         (s.nextId + 1)) :=
  create_ok_eq s u rawName desc parent h1 h2 h3 h4

/-- Claim C1 witness: creating " Food " in the empty store for user 1
yields the trimmed, fully materialized category with generated id 1. -/
theorem create_returns_materialized_category_witness :
    strTrim " Food " ≠ "" ∧
    create emptyStore (User.mk 1) " Food " (some "d") none =
      (Except.ok (Category.mk 1 (strTrim " Food ") (some "d") 1 none),
       Store.mk [Category.mk 1 (strTrim " Food ") (some "d") 1 none] 2) :=
  ⟨by decide,
   create_returns_materialized_category emptyStore (User.mk 1) " Food "
     (some "d") none (by decide) (by decide) (by decide) (by decide)⟩

/-- Claim C2: a name consisting solely of Unicode whitespace (empty string
included) makes `create` fail with `MissingData "category name"` with the
store untouched; moreover `create` produces `MissingData` exactly when the
Unicode-whitespace trim of the name is empty, which happens exactly when
every character of the name is Unicode whitespace. -/
theorem create_rejects_whitespace_name (s : Store) (u : User)
    (rawName : String) (desc : Option String) (parent : Option Category) :
    (rawName.data.all rustIsWhitespace = true →
      create s u rawName desc parent =
        (Except.error (CategoryErrorKind.MissingData "category name"), s))
  ∧ ((create s u rawName desc parent).1 =
        Except.error (CategoryErrorKind.MissingData "category name") ↔
      strTrim rawName = "")
  ∧ (strTrim rawName = "" ↔ rawName.data.all rustIsWhitespace = true) := by
  have hiff : strTrim rawName = "" ↔ rawName.data.all rustIsWhitespace = true := by
    simp [strTrim_eq_empty_iff, List.all_eq_true]
  refine ⟨?_, ⟨?_, ?_⟩, hiff⟩
  · intro h
    unfold create
    rw [if_pos (hiff.mpr h)]
  · intro h
    by_contra hne
    unfold create at h
    rw [if_neg hne] at h
    cases parent with
    | none => exact mapInsertResult_ne_missingData _ _ _ _ h
    | some p =>
      dsimp only at h
      by_cases hpu : p.user_id ≠ u.id
      · rw [if_pos hpu] at h
        simp at h
      · rw [if_neg hpu] at h
        exact mapInsertResult_ne_missingData _ _ _ _ h
  · intro h
    unfold create
    rw [if_pos h]

/-- Claim C2 witness: a mixture of ASCII whitespace, Ogham space mark,
four-per-em space and the line separator is rejected with `MissingData`
and no insert happens. -/
theorem create_rejects_whitespace_name_witness :
    (String.mk [' ', '\n', '\t', Char.ofNat 0x1680, Char.ofNat 0x2005,
      Char.ofNat 0x2028]).data.all rustIsWhitespace = true ∧
    create emptyStore (User.mk 1)
      (String.mk [' ', '\n', '\t', Char.ofNat 0x1680, Char.ofNat 0x2005,
        Char.ofNat 0x2028]) none none =
      (Except.error (CategoryErrorKind.MissingData "category name"), emptyStore) :=
  ⟨by decide,
   (create_rejects_whitespace_name emptyStore (User.mk 1)
     (String.mk [' ', '\n', '\t', Char.ofNat 0x1680, Char.ofNat 0x2005,
       Char.ofNat 0x2028]) none none).1 (by decide)⟩

/-- Claim C3: a parent owned by a different user makes `create` fail with
`ParentCategoryHasWrongUser` carrying the requesting user's id first and
the parent's owner second, with the store untouched. -/
theorem create_rejects_foreign_parent (s : Store) (u : User)
    (rawName : String) (desc : Option String) (p : Category)
    (h1 : strTrim rawName ≠ "") (h2 : p.user_id ≠ u.id) :
    create s u rawName desc (some p) =
      (Except.error (CategoryErrorKind.ParentCategoryHasWrongUser u.id p.user_id),
       s) := by
  unfold create
  rw [if_neg h1]
  dsimp only
  rw [if_pos h2]

/-- Claim C3 witness: user 1 supplying user 2's category as parent gets
`ParentCategoryHasWrongUser 1 2` and the store is unchanged. -/
theorem create_rejects_foreign_parent_witness :
    strTrim "Telecommunication" ≠ "" ∧ ((2 : Int) ≠ (1 : Int)) ∧
    create emptyStore (User.mk 1) "Telecommunication" (some "Internet")
      (some (Category.mk 7 "Utilities" none 2 none)) =
      (Except.error (CategoryErrorKind.ParentCategoryHasWrongUser 1 2),
       emptyStore) :=
  ⟨by decide, by decide,
   create_rejects_foreign_parent emptyStore (User.mk 1) "Telecommunication"
     (some "Internet") (Category.mk 7 "Utilities" none 2 none)
     (by decide) (by decide)⟩

theorem runInsert_error_store_unchanged (s : Store) (name : String)
    (desc : Option String) (u : User) (parent : Option Category)
    (err : CategoryErrorKind)
    (h : (runInsert s name desc u parent).1 = Except.error err) :
    (runInsert s name desc u parent).2 = s := by
  unfold runInsert insertCategory at h ⊢
  cases h1 : dupExists s u.id (parent.map fun c => c.id) name with
  | true => simp [h1]
  | false =>
    cases h2 : parentMissing s (parent.map fun c => c.id) with
    | true => simp [h1, h2]
    | false => simp [h1, h2, mapInsertResult] at h

/-- Claim C4: an insert rejected by the uniqueness constraint is translated
into `CategoryAlreadyExists` carrying the (trimmed) name and the parent's
name, any other insert failure is wrapped as `CreationFailed`, and on every
failure path of `create` the store is unchanged (no row is inserted). -/
theorem create_translates_insert_failures (name : String)
    (parent : Option Category) (e : DieselError) (s : Store) (u : User)
    (rawName : String) (desc : Option String) :
    mapInsertResult name parent
        (Except.error (DieselError.DatabaseError DatabaseErrorKind.UniqueViolation)) =
      Except.error (CategoryErrorKind.CategoryAlreadyExists name
        (parent.map fun p => p.name))
  ∧ (e ≠ DieselError.DatabaseError DatabaseErrorKind.UniqueViolation →
      mapInsertResult name parent (Except.error e) =
        Except.error (CategoryErrorKind.CreationFailed e))
  ∧ (∀ err, (create s u rawName desc parent).1 = Except.error err →
      (create s u rawName desc parent).2 = s) := by
  refine ⟨rfl, ?_, ?_⟩
  · intro he
    cases e with
    | DatabaseError k =>
      cases k with
      | UniqueViolation => exact absurd rfl he
      | ForeignKeyViolation => rfl
      | SerializationFailure => rfl
      | UnableToSendCommand => rfl
    | NotFound => rfl
    | QueryBuilderError => rfl
    | RollbackTransaction => rfl
  · intro err herr
    unfold create at herr ⊢
    by_cases h0 : strTrim rawName = ""
    · rw [if_pos h0]
    · rw [if_neg h0] at herr ⊢
      cases parent with
      | none => exact runInsert_error_store_unchanged _ _ _ _ _ _ herr
      | some p =>
        dsimp only at herr ⊢
        by_cases hpu : p.user_id ≠ u.id
        · rw [if_pos hpu]
        · rw [if_neg hpu] at herr ⊢
          exact runInsert_error_store_unchanged _ _ _ _ _ _ herr

/-- Claim C4 witness: a serialization failure is not a unique violation and
is wrapped as `CreationFailed`; a failing create (empty name) leaves the
empty store unchanged. -/
theorem create_translates_insert_failures_witness :
    (DieselError.DatabaseError DatabaseErrorKind.SerializationFailure ≠
      DieselError.DatabaseError DatabaseErrorKind.UniqueViolation) ∧
    mapInsertResult "Food" none
        (Except.error (DieselError.DatabaseError DatabaseErrorKind.SerializationFailure)) =
      Except.error (CategoryErrorKind.CreationFailed
        (DieselError.DatabaseError DatabaseErrorKind.SerializationFailure)) ∧
    (create emptyStore (User.mk 1) "" none none).2 = emptyStore :=
  ⟨by decide,
   (create_translates_insert_failures "Food" none
     (DieselError.DatabaseError DatabaseErrorKind.SerializationFailure)
     emptyStore (User.mk 1) "" none).2.1 (by decide),
   (create_translates_insert_failures "Food" none
     (DieselError.DatabaseError DatabaseErrorKind.SerializationFailure)
     emptyStore (User.mk 1) "" none).2.2
     (CategoryErrorKind.MissingData "category name") rfl⟩

/-- Claim C6: `delete` classifies its outcome exhaustively — a foreign-key
violation yields `HasChildren id`, any other storage failure yields
`DeletionFailed`, an affected row count of zero yields `NotDeleted id`,
and a count of one yields plain success; `delete` is exactly this
classification applied to the delete statement's result. -/
theorem delete_classifies_outcomes (id : Int) (e : DieselError) :
    mapDeleteResult id
        (Except.error (DieselError.DatabaseError DatabaseErrorKind.ForeignKeyViolation)) =
      Except.error (CategoryErrorKind.HasChildren id)
  ∧ (e ≠ DieselError.DatabaseError DatabaseErrorKind.ForeignKeyViolation →
      mapDeleteResult id (Except.error e) =
        Except.error (CategoryErrorKind.DeletionFailed e))
  ∧ mapDeleteResult id (Except.ok 0) =
      Except.error (CategoryErrorKind.NotDeleted id)
  ∧ mapDeleteResult id (Except.ok 1) = Except.ok ()
  ∧ (∀ s : Store, delete s id =
      (mapDeleteResult id (deleteRows s id).1, (deleteRows s id).2)) := by
  refine ⟨rfl, ?_, rfl, rfl, fun s => rfl⟩
  intro he
  cases e with
  | DatabaseError k =>
    cases k with
    | UniqueViolation => rfl
    | ForeignKeyViolation => exact absurd rfl he
    | SerializationFailure => rfl
    | UnableToSendCommand => rfl
  | NotFound => rfl
  | QueryBuilderError => rfl
  | RollbackTransaction => rfl

/-- Claim C6 witness: a rolled back transaction error is not a foreign-key
violation and is wrapped as `DeletionFailed`. -/
theorem delete_classifies_outcomes_witness :
    (DieselError.RollbackTransaction ≠
      DieselError.DatabaseError DatabaseErrorKind.ForeignKeyViolation) ∧
    mapDeleteResult 5 (Except.error DieselError.RollbackTransaction) =
      Except.error (CategoryErrorKind.DeletionFailed
        DieselError.RollbackTransaction) :=
  ⟨by decide,
   (delete_classifies_outcomes 5 DieselError.RollbackTransaction).2.1 (by decide)⟩

/-- Claim C7: `read` returns the stored category with the requested primary
key when the lookup succeeds and collapses every error — absence and
storage failures alike — into `none`, so the caller cannot distinguish the
two; `read` is a pure lookup and returns no modified store. -/
theorem read_collapses_all_errors :
    (∀ c, readResult (Except.ok c) = some c)
  ∧ (∀ e, readResult (Except.error e) = none)
  ∧ (∀ s id, read s id = readResult (findRow s id))
  ∧ (∀ s id c, findRow s id = Except.ok c → read s id = some c ∧ c.id = id) := by
  refine ⟨fun c => rfl, fun e => rfl, fun s id => rfl, ?_⟩
  intro s id c h
  unfold findRow at h
  cases hf : s.cats.find? fun d => d.id == id with
  | none => rw [hf] at h; exact absurd h (by simp)
  | some d =>
    rw [hf] at h
    have hdc : d = c := by simpa using h
    subst hdc
    have hid := @List.find?_some Category (fun e => e.id == id) d s.cats hf
    refine ⟨?_, by simpa using hid⟩
    unfold read findRow
    rw [hf]
    rfl

/-- Claim C7 witness: on a one-row store, a successful lookup makes `read`
return that row, and any lookup error (`NotFound` included) collapses to
`none`. -/
theorem read_collapses_all_errors_witness :
    findRow (Store.mk [Category.mk 3 "Rent" none 1 none] 4) 3 =
      Except.ok (Category.mk 3 "Rent" none 1 none) ∧
    read (Store.mk [Category.mk 3 "Rent" none 1 none] 4) 3 =
      some (Category.mk 3 "Rent" none 1 none) ∧
    (Category.mk 3 "Rent" none 1 none).id = 3 :=
  ⟨rfl,
   (read_collapses_all_errors.2.2.2 (Store.mk [Category.mk 3 "Rent" none 1 none] 4)
     3 (Category.mk 3 "Rent" none 1 none) rfl).1,
   (read_collapses_all_errors.2.2.2 (Store.mk [Category.mk 3 "Rent" none 1 none] 4)
     3 (Category.mk 3 "Rent" none 1 none) rfl).2⟩

/-- Claim C9: `delete` takes no user and performs no ownership check — for
every store and every stored childless category, whatever its `user_id`,
deleting its id succeeds and removes exactly the rows with that id. -/
theorem delete_has_no_ownership_check (s : Store) (c : Category)
    (hmem : c ∈ s.cats)
    (hnochild : (s.cats.any fun d => d.parent_id == some c.id) = false) :
    delete s c.id =
      (Except.ok (),
       Store.mk (s.cats.filter fun d => !(d.id == c.id)) s.nextId) := by
  unfold delete deleteRows
  rw [if_neg (by simp [hnochild])]
  have hlt : (s.cats.filter fun d => !(d.id == c.id)).length < s.cats.length := by
    rw [List.length_filter_lt_length_iff_exists]
    exact ⟨c, hmem, by simp⟩
  have hne : s.cats.length - (s.cats.filter fun d => !(d.id == c.id)).length ≠ 0 :=
    Nat.sub_ne_zero_of_lt hlt
  simp [mapDeleteResult, hne]

/-- Claim C9 witness: a childless category owned by user 42 is deleted by a
caller holding only the connection and the id; no user is involved. -/
theorem delete_has_no_ownership_check_witness :
    (Category.mk 7 "Secret" none 42 none) ∈
      (Store.mk [Category.mk 7 "Secret" none 42 none] 8).cats ∧
    delete (Store.mk [Category.mk 7 "Secret" none 42 none] 8) 7 =
      (Except.ok (), Store.mk [] 8) :=
  ⟨by decide,
   delete_has_no_ownership_check (Store.mk [Category.mk 7 "Secret" none 42 none] 8)
     (Category.mk 7 "Secret" none 42 none) (by decide) (by decide)⟩

/-- Claim C10: the parent-ownership check reads only the `user_id` of the
caller-supplied parent value and never re-reads it from storage — when it
matches, `create` hands the parent's id straight to the insert, and for a
parent id with no stored row (and no duplicate triple) the outcome is the
storage foreign-key rejection wrapped as `CreationFailed`. -/
theorem create_trusts_supplied_parent (s : Store) (u : User)
    (rawName : String) (desc : Option String) (p : Category)
    (h1 : strTrim rawName ≠ "") (h2 : p.user_id = u.id) :
    create s u rawName desc (some p) =
      (mapInsertResult (strTrim rawName) (some p)
        (insertCategory s (strTrim rawName) desc u.id (some p.id)).1,
       (insertCategory s (strTrim rawName) desc u.id (some p.id)).2)
  ∧ ((s.cats.any fun c => c.id == p.id) = false →
      dupExists s u.id (some p.id) (strTrim rawName) = false →
      create s u rawName desc (some p) =
        (Except.error (CategoryErrorKind.CreationFailed
          (DieselError.DatabaseError DatabaseErrorKind.ForeignKeyViolation)),
         s)) := by
  have hmain : create s u rawName desc (some p) =
      (mapInsertResult (strTrim rawName) (some p)
        (insertCategory s (strTrim rawName) desc u.id (some p.id)).1,
       (insertCategory s (strTrim rawName) desc u.id (some p.id)).2) := by
    unfold create
    rw [if_neg h1]
    dsimp only
    rw [if_neg (by simp [h2])]
    rfl
  refine ⟨hmain, ?_⟩
  intro h3 h4
  rw [hmain]
  unfold insertCategory
  simp [h4, parentMissing, h3, mapInsertResult]

/-- Claim C10 witness: user 1 supplies a parent record carrying user id 1
but an id (9) that no stored row has; `create` proceeds past the ownership
check and the storage foreign key rejects the insert as `CreationFailed`. -/
theorem create_trusts_supplied_parent_witness :
    strTrim "Phone" ≠ "" ∧
    create emptyStore (User.mk 1) "Phone" none
      (some (Category.mk 9 "Ghost" none 1 none)) =
      (Except.error (CategoryErrorKind.CreationFailed
        (DieselError.DatabaseError DatabaseErrorKind.ForeignKeyViolation)),
       emptyStore) :=
  ⟨by decide,
   (create_trusts_supplied_parent emptyStore (User.mk 1) "Phone" none
     (Category.mk 9 "Ghost" none 1 none) (by decide) (by decide)).2
     (by decide) (by decide)⟩

theorem find_distinct_id (l : List Category) (c : Category)
    (hd : l.Pairwise fun a b => a.id ≠ b.id) (hm : c ∈ l) :
    (l.find? fun d => d.id == c.id) = some c := by
  induction l with
  | nil => cases hm
  | cons a t ih =>
    rcases List.mem_cons.mp hm with rfl | hmt
    · exact List.find?_cons_of_pos t (by simp)
    · have hne : a.id ≠ c.id := (List.pairwise_cons.mp hd).1 c hmt
      rw [List.find?_cons_of_neg t (by simpa using hne)]
      exact ih (List.pairwise_cons.mp hd).2 hmt

/-- Claim C8: deleting a category that some other category references as
parent fails with `HasChildren id` and leaves the store unchanged; the
category still exists and `read` on its id still returns it.  (The
distinct-ids hypothesis holds of every store reachable through the
operations, since storage generates fresh identities.) -/
theorem delete_with_child_blocked (s : Store) (c d : Category)
    (hids : s.cats.Pairwise fun a b => a.id ≠ b.id)
    (hc : c ∈ s.cats) (hd : d ∈ s.cats) (hpar : d.parent_id = some c.id) :
    delete s c.id = (Except.error (CategoryErrorKind.HasChildren c.id), s)
    ∧ read s c.id = some c := by
  have hany : (s.cats.any fun e => e.parent_id == some c.id) = true := by
    rw [List.any_eq_true]
    exact ⟨d, hd, by simp [hpar]⟩
  constructor
  · unfold delete deleteRows
    rw [if_pos hany]
    rfl
  · unfold read findRow
    rw [find_distinct_id s.cats c hids hc]
    rfl

/-- Claim C8 witness: with "Haircuts" referencing "Lifestyle" as parent,
deleting "Lifestyle" fails with `HasChildren 1`, the store is unchanged,
and `read` still returns the category. -/
theorem delete_with_child_blocked_witness :
    delete (Store.mk [Category.mk 1 "Lifestyle" none 1 none,
        Category.mk 2 "Haircuts" none 1 (some 1)] 3) 1 =
      (Except.error (CategoryErrorKind.HasChildren 1),
       Store.mk [Category.mk 1 "Lifestyle" none 1 none,
         Category.mk 2 "Haircuts" none 1 (some 1)] 3) ∧
    read (Store.mk [Category.mk 1 "Lifestyle" none 1 none,
        Category.mk 2 "Haircuts" none 1 (some 1)] 3) 1 =
      some (Category.mk 1 "Lifestyle" none 1 none) :=
  delete_with_child_blocked
    (Store.mk [Category.mk 1 "Lifestyle" none 1 none,
      Category.mk 2 "Haircuts" none 1 (some 1)] 3)
    (Category.mk 1 "Lifestyle" none 1 none)
    (Category.mk 2 "Haircuts" none 1 (some 1))
    (by simp) (by simp) (by simp) rfl

theorem uniqueTriples_insert (s : Store) (name : String) (desc : Option String)
    (uid : Int) (pid : Option Int) (h : UniqueTriples s) :
    UniqueTriples (insertCategory s name desc uid pid).2 := by
  unfold insertCategory
  cases h1 : dupExists s uid pid name with
  | true => simpa [h1] using h
  | false =>
    cases h2 : parentMissing s pid with
    | true => simpa [h1, h2] using h
    | false =>
      rw [if_neg (by simp [h1]), if_neg (by simp [h2])]
      unfold UniqueTriples at h ⊢
      rw [List.pairwise_append]
      refine ⟨h, by simp, ?_⟩
      intro a ha b hb
      have hb2 : b = Category.mk s.nextId name desc uid pid := by simpa using hb
      subst hb2
      rintro ⟨e1, e2, e3⟩
      have hcontra : dupExists s uid pid name = true := by
        rw [dupExists, List.any_eq_true]
        exact ⟨a, ha, by simp [e1, e2, e3]⟩
      rw [h1] at hcontra
      cases hcontra

theorem uniqueTriples_create (s : Store) (u : User) (n : String)
    (d : Option String) (p : Option Category) (h : UniqueTriples s) :
    UniqueTriples (create s u n d p).2 := by
  unfold create
  by_cases h0 : strTrim n = ""
  · rw [if_pos h0]; exact h
  · rw [if_neg h0]
    cases p with
    | none => exact uniqueTriples_insert s (strTrim n) d u.id none h
    | some q =>
      dsimp only
      by_cases hq : q.user_id ≠ u.id
      · rw [if_pos hq]; exact h
      · rw [if_neg hq]
        exact uniqueTriples_insert s (strTrim n) d u.id (some q.id) h

theorem uniqueTriples_delete (s : Store) (i : Int) (h : UniqueTriples s) :
    UniqueTriples (delete s i).2 := by
  unfold delete deleteRows
  cases h1 : s.cats.any fun c => c.parent_id == some i with
  | true => simpa [h1] using h
  | false =>
    rw [if_neg (by simp [h1])]
    exact List.Pairwise.sublist (List.filter_sublist s.cats) h

theorem reachable_uniqueTriples (s : Store) (h : Reachable s) :
    UniqueTriples s := by
  induction h with
  | empty => simp [UniqueTriples, emptyStore]
  | step_create s u n d p hr ih => exact uniqueTriples_create s u n d p ih
  | step_delete s i hr ih => exact uniqueTriples_delete s i ih

theorem create_duplicate_fails (s1 : Store) (u : User) (rawName : String)
    (desc : Option String) (parent : Option Category)
    (h0 : strTrim rawName ≠ "") (hown : parentOwnedBy parent u.id = true)
    (hdup : dupExists s1 u.id (parent.map fun q => q.id) (strTrim rawName) = true) :
    create s1 u rawName desc parent =
      (Except.error (CategoryErrorKind.CategoryAlreadyExists (strTrim rawName)
        (parent.map fun q => q.name)), s1) := by
  unfold create
  rw [if_neg h0]
  cases parent with
  | none =>
    unfold runInsert insertCategory
    rw [if_pos hdup]
    rfl
  | some p =>
    have hq : p.user_id = u.id := by simpa [parentOwnedBy] using hown
    dsimp only
    rw [if_neg (by simp [hq])]
    unfold runInsert insertCategory
    rw [if_pos hdup]
    rfl

theorem create_ok_inversion (s : Store) (u : User) (rawName : String)
    (desc : Option String) (parent : Option Category) (c : Category) (s1 : Store)
    (h : create s u rawName desc parent = (Except.ok c, s1)) :
    strTrim rawName ≠ "" ∧ parentOwnedBy parent u.id = true ∧
    c = Category.mk s.nextId (strTrim rawName) desc u.id
      (parent.map fun q => q.id) ∧
    s1 = Store.mk (s.cats ++ [c]) (s.nextId + 1) := by
  by_cases h0 : strTrim rawName = ""
  · unfold create at h
    rw [if_pos h0] at h
    simp at h
  · have hmain : ∀ pOk : parentOwnedBy parent u.id = true,
        runInsert s (strTrim rawName) desc u parent = (Except.ok c, s1) →
        c = Category.mk s.nextId (strTrim rawName) desc u.id
          (parent.map fun q => q.id) ∧
        s1 = Store.mk (s.cats ++ [c]) (s.nextId + 1) := by
      intro pOk hri
      unfold runInsert insertCategory at hri
      cases h1 : dupExists s u.id (parent.map fun q => q.id) (strTrim rawName) with
      | true => rw [if_pos h1] at hri; simp [mapInsertResult] at hri
      | false =>
        rw [if_neg (by simp [h1])] at hri
        cases h2 : parentMissing s (parent.map fun q => q.id) with
        | true => rw [if_pos h2] at hri; simp [mapInsertResult] at hri
        | false =>
          rw [if_neg (by simp [h2])] at hri
          obtain ⟨hok, hst⟩ := Prod.mk.inj hri
          have hc : Category.mk s.nextId (strTrim rawName) desc u.id
              (parent.map fun q => q.id) = c := by
            simpa [mapInsertResult] using hok
          exact ⟨hc.symm, by rw [← hc, ← hst]⟩
    unfold create at h
    rw [if_neg h0] at h
    cases parent with
    | none =>
      obtain ⟨hc, hs⟩ := hmain rfl h
      exact ⟨h0, rfl, hc, hs⟩
    | some p =>
      dsimp only at h
      by_cases hq : p.user_id ≠ u.id
      · rw [if_pos hq] at h
        simp at h
      · rw [if_neg hq] at h
        have hq2 : p.user_id = u.id := not_ne_iff.mp hq
        have pOk : parentOwnedBy (some p) u.id = true := by
          simp [parentOwnedBy, hq2]
        obtain ⟨hc, hs⟩ := hmain pOk h
        exact ⟨h0, pOk, hc, hs⟩

/-- Claim C5: the store preserves per-user `(name, parent)` uniqueness —
every reachable state satisfies the invariant; a second `create` of the
same (user, parent, trimmed name) tuple fails with `CategoryAlreadyExists`
and leaves the state unchanged; and two different users can create
root categories with the same name one after the other, both succeeding. -/
theorem store_enforces_per_user_uniqueness :
    (∀ s, Reachable s → UniqueTriples s)
  ∧ (∀ (s : Store) (u : User) (rawName : String) (desc : Option String)
      (parent : Option Category) (c : Category) (s1 : Store),
      create s u rawName desc parent = (Except.ok c, s1) →
      create s1 u rawName desc parent =
        (Except.error (CategoryErrorKind.CategoryAlreadyExists (strTrim rawName)
          (parent.map fun q => q.name)), s1))
  ∧ (∀ (s : Store) (u v : User) (rawName : String) (desc : Option String),
      strTrim rawName ≠ "" → u.id ≠ v.id →
      dupExists s u.id none (strTrim rawName) = false →
      dupExists s v.id none (strTrim rawName) = false →
      ∃ cu s1 cv s2, create s u rawName desc none = (Except.ok cu, s1) ∧
        create s1 v rawName desc none = (Except.ok cv, s2)) := by
  refine ⟨reachable_uniqueTriples, ?_, ?_⟩
  · intro s u rawName desc parent c s1 h
    obtain ⟨h0, hown, hc, hs1⟩ := create_ok_inversion s u rawName desc parent c s1 h
    apply create_duplicate_fails s1 u rawName desc parent h0 hown
    subst hs1
    rw [dupExists, List.any_eq_true]
    refine ⟨c, by simp, ?_⟩
    simp [hc]
  · intro s u v rawName desc h0 huv hdu hdv
    have e1 := create_ok_eq s u rawName desc none h0 rfl rfl hdu
    have hdv1 : dupExists
        (Store.mk (s.cats ++
          [Category.mk s.nextId (strTrim rawName) desc u.id none])
          (s.nextId + 1)) v.id none (strTrim rawName) = false := by
      rw [dupExists] at hdv ⊢
      simp [List.any_append, hdv, huv]
    exact ⟨Category.mk s.nextId (strTrim rawName) desc u.id none,
      Store.mk (s.cats ++ [Category.mk s.nextId (strTrim rawName) desc u.id none])
        (s.nextId + 1),
      Category.mk (s.nextId + 1) (strTrim rawName) desc v.id none,
      Store.mk ((s.cats ++
          [Category.mk s.nextId (strTrim rawName) desc u.id none]) ++
          [Category.mk (s.nextId + 1) (strTrim rawName) desc v.id none])
        (s.nextId + 1 + 1),
      e1, create_ok_eq _ v rawName desc none h0 rfl rfl hdv1⟩

/-- Claim C5 witness: after user 1 has created root category "Housing",
creating it again for user 1 fails with `CategoryAlreadyExists` and leaves
the store unchanged, while user 2 can still create "Housing". -/
theorem store_enforces_per_user_uniqueness_witness :
    create (Store.mk [Category.mk 1 "Housing" none 1 none] 2) (User.mk 1)
        "Housing" none none =
      (Except.error (CategoryErrorKind.CategoryAlreadyExists "Housing" none),
       Store.mk [Category.mk 1 "Housing" none 1 none] 2) ∧
    (∃ cu s1 cv s2,
      create emptyStore (User.mk 1) "Housing" none none = (Except.ok cu, s1) ∧
      create s1 (User.mk 2) "Housing" none none = (Except.ok cv, s2)) :=
  ⟨store_enforces_per_user_uniqueness.2.1 emptyStore (User.mk 1) "Housing"
     none none (Category.mk 1 "Housing" none 1 none)
     (Store.mk [Category.mk 1 "Housing" none 1 none] 2) rfl,
   store_enforces_per_user_uniqueness.2.2 emptyStore (User.mk 1) (User.mk 2)
     "Housing" none (by decide) (by decide) (by decide) (by decide)⟩

end Firetrack
